import Mathlib

set_option maxRecDepth 100000

/-!
Verification of the MediLearn federated-learning controller
(src/backend/server_main.py) against its specification.

Shallow embedding conventions:
- Python floats are idealised as exact rationals (ℚ).
- A JSON result dict is embedded as a structure of optional fields; a
  missing key is a field equal to none, and a direct subscript access
  r["k"] on a missing key is modelled as Except.error (the raised
  KeyError).
- Code that may raise an uncaught exception is embedded in
  Except String; the error value models the exception escaping the
  function.  File writes performed before an exception is raised are not
  tracked on the error path (no claim inspects them).
- Each persisted file is a FileState: missing, corrupt (present but not
  parseable as JSON), or parsed to a value.  json.load on a corrupt file
  raises, which the read embeddings surface as ReadResult.raised.
- numpy operations: np.array of a ragged nested list and np.mean over a
  list of arrays of differing shapes raise ValueError; the embedded
  npMeanMats / npMeanVecs return Except.error in exactly those cases and
  otherwise the element-wise mean.  Error message strings are
  representative, not byte-identical to CPython/numpy messages.
- Wall-clock fields (the timestamp of a status record, the time field of
  an agent-log entry) are real time and are not modelled.
-/

/-- ModelParameters: the 2-element weights structure
[coefficient matrix, intercept vector] exchanged with nodes. -/
abbrev Weights := List (List ℚ) × List ℚ

/-- A node result dict as the controller sees it: the JSON object parsed
from a node response, or the error entry built for a failed call.  Every
field is optional because the controller performs no validation of the
body. -/
structure NodeResult where
  hospital : Option String
  accuracy : Option ℚ
  samples : Option ℕ
  weights : Option Weights
  error : Option String
  deriving DecidableEq

/-- A persisted file: absent, present but not valid JSON, or parsed. -/
inductive FileState (α : Type) where
  | missing
  | corrupt
  | parsed (v : α)
  deriving DecidableEq

/-- Outcome of a read endpoint: a value, a deliberate HTTPException, or
an uncaught exception (e.g. json.JSONDecodeError). -/
inductive ReadResult (α : Type) where
  | ok (v : α)
  | httpError (code : ℕ) (msg : String)
  | raised (msg : String)
  deriving DecidableEq

/-- The status record written by the loop each cycle (global_data):
cycle index, aggregated accuracy, and the per-node results list.  The
wall-clock timestamp field is not modelled. -/
structure StatusData where
  cycle : ℕ
  global_accuracy : ℚ
  hospitals : List NodeResult
  deriving DecidableEq

/-- An agent-log entry (the wall-clock time field is not modelled). -/
structure AgentEntry where
  cycle : ℕ
  action : String
  deriving DecidableEq

/-- The parsed agent_config.json document; both keys are optional
(cfg.get with defaults). -/
structure ConfigDoc where
  cycles : Option ℕ
  hospitals : Option (List String)
  deriving DecidableEq

/-- The five files owned by the controller. -/
structure Files where
  status : FileState StatusData
  history : FileState (List StatusData)
  global_model : FileState Weights
  config : FileState ConfigDoc
  agent_log : FileState (List AgentEntry)
  deriving DecidableEq

/-- Python round(x, 3) idealised on exact rationals: nearest integer of
x*1000, ties to even, divided by 1000. -/
def roundHalfEven (q : ℚ) : ℤ :=
  if q - q.floor < 1/2 then q.floor
  else if q - q.floor > 1/2 then q.floor + 1
  else if q.floor % 2 = 0 then q.floor else q.floor + 1

/-- Rounding to 3 decimal places, as round(x, 3). -/
def round3 (q : ℚ) : ℚ := (roundHalfEven (q * 1000) : ℚ) / 1000

/-- total_samples: sum of r.get("samples", 0) over the results.  (The
generator guard "if r" only skips a null/empty entry, which the element
type cannot denote; it is the identity here.) -/
def totalSamples (results : List NodeResult) : ℕ :=
  (results.map (fun r => r.samples.getD 0)).sum

/-- The terms r["accuracy"] * r["samples"] of the weighted sum, in
order; a missing key raises KeyError, which aborts the whole sum. -/
def weighted_terms : List NodeResult → Except String (List ℚ)
  | [] => Except.ok []
  | r :: rest =>
      match r.accuracy with
      | none => Except.error ("KeyError: accuracy")
      | some a =>
        match r.samples with
        | none => Except.error ("KeyError: samples")
        | some s =>
          match weighted_terms rest with
          | Except.error e => Except.error e
          | Except.ok ts => Except.ok ((a * (s : ℚ)) :: ts)

/-- aggregate_fedavg (server_main.py lines 86-91): 0.0 when the summed
sample weight is 0, otherwise the weighted mean rounded to 3 decimals;
note the weighted sum subscripts every entry, error entries included. -/
def aggregate_fedavg (results : List NodeResult) : Except String ℚ :=
  if totalSamples results = 0 then Except.ok 0
  else
    match weighted_terms results with
    | Except.error e => Except.error e
    | Except.ok ts => Except.ok (round3 (ts.sum / (totalSamples results : ℚ)))

/-- Row lengths of a matrix (the nested-list shape seen by np.array). -/
def matDims (m : List (List ℚ)) : List ℕ := m.map List.length

/-- Whether all rows of a matrix have equal length (np.array succeeds). -/
def isRect (m : List (List ℚ)) : Bool :=
  match m with
  | [] => true
  | r0 :: rs => rs.all (fun r => r.length = r0.length)

/-- Column j means of a family of vectors, divided by the family size. -/
def colMeans (vs : List (List ℚ)) (n : ℕ) : List ℚ :=
  (List.range n).map (fun j => ((vs.map (fun v => v.getD j 0)).sum) / (vs.length : ℚ))

/-- Row i of a matrix. -/
def rowOf (m : List (List ℚ)) (i : ℕ) : List ℚ := m.getD i []

/-- Element-wise means of a family of rows*cols matrices. -/
def matMeans (ms : List (List (List ℚ))) (rows cols : ℕ) : List (List ℚ) :=
  (List.range rows).map (fun i => colMeans (ms.map (fun m => rowOf m i)) cols)

/-- np.mean(vectors, axis=0): element-wise mean; ValueError when the
vector lengths differ. -/
def npMeanVecs (vs : List (List ℚ)) : Except String (List ℚ) :=
  match vs with
  | [] => Except.error ("np.mean of empty sequence")
  | v0 :: rest =>
    if rest.all (fun v => v.length = v0.length) then
      Except.ok (colMeans (v0 :: rest) v0.length)
    else Except.error ("ValueError: inhomogeneous shape")

/-- np.mean(matrices, axis=0): element-wise mean; ValueError when a
matrix is ragged (np.array fails) or when the matrix shapes differ. -/
def npMeanMats (ms : List (List (List ℚ))) : Except String (List (List ℚ)) :=
  match ms with
  | [] => Except.error ("np.mean of empty sequence")
  | m0 :: rest =>
    if (m0 :: rest).all isRect then
      if rest.all (fun m => matDims m = matDims m0) then
        Except.ok (matMeans (m0 :: rest) m0.length (rowOf m0 0).length)
      else Except.error ("ValueError: inhomogeneous shape")
    else Except.error ("ValueError: ragged nested sequences")

/-- The list comprehension [r for r in results if "weights" in r]. -/
def validResults (results : List NodeResult) : List NodeResult :=
  results.filter (fun r => r.weights.isSome)

/-- aggregate_model_weights (server_main.py lines 93-101): None when no
result carries weights, otherwise the element-wise np.mean of the
coefficient matrices and of the intercept vectors. -/
def aggregate_model_weights (results : List NodeResult) : Except String (Option Weights) :=
  if (validResults results).isEmpty then Except.ok none
  else
    match npMeanMats ((validResults results).filterMap (fun r => r.weights.map Prod.fst)) with
    | Except.error e => Except.error e
    | Except.ok avgCoef =>
      match npMeanVecs ((validResults results).filterMap (fun r => r.weights.map Prod.snd)) with
      | Except.error e => Except.error e
      | Except.ok avgIntercept => Except.ok (some (avgCoef, avgIntercept))

/-- Decidable equality for Except values, used to evaluate the embedded
fallible functions on concrete inputs. -/
instance decEqExcept {ε α : Type} [DecidableEq ε] [DecidableEq α] : DecidableEq (Except ε α) :=
  fun a b =>
    match a, b with
    | Except.ok x, Except.ok y =>
        if h : x = y then isTrue (by rw [h]) else isFalse (by intro hh; cases hh; exact h rfl)
    | Except.error x, Except.error y =>
        if h : x = y then isTrue (by rw [h]) else isFalse (by intro hh; cases hh; exact h rfl)
    | Except.ok _, Except.error _ => isFalse (by intro hh; cases hh)
    | Except.error _, Except.ok _ => isFalse (by intro hh; cases hh)

/-- Outcome of one HTTP POST to a node: a raised transport exception
(timeout, connection refused, ...) with its message, or a response whose
body either parses (to a NodeResult dict) or raises on .json(). -/
inductive HttpOutcome where
  | exc (msg : String)
  | resp (body : Except String NodeResult)
  deriving DecidableEq

/-- Hospital label for index i, as "Hospital_" + chr(65+i). -/
def hospital_label (i : ℕ) : String :=
  "Hospital_" ++ String.singleton (Char.ofNat (65 + i))

/-- The error entry appended for an exception at index i. -/
def exc_entry (i : ℕ) (msg : String) : NodeResult :=
  { hospital := some (hospital_label i), accuracy := none, samples := none,
    weights := none, error := some msg }

/-- The result loop of train_all_hospitals from index i on: an exception
becomes an error entry, a body is parsed by res.json() (whose own
exception propagates uncaught). -/
def train_from (i : ℕ) : List HttpOutcome → Except String (List NodeResult)
  | [] => Except.ok []
  | HttpOutcome.exc msg :: rest =>
      match train_from (i + 1) rest with
      | Except.error e => Except.error e
      | Except.ok out => Except.ok (exc_entry i msg :: out)
  | HttpOutcome.resp body :: rest =>
      match body with
      | Except.error e => Except.error e
      | Except.ok r =>
        match train_from (i + 1) rest with
        | Except.error e => Except.error e
        | Except.ok out => Except.ok (r :: out)

/-- train_all_hospitals (server_main.py lines 118-129), over the list of
per-endpoint outcomes (asyncio.gather preserves endpoint order). -/
def train_all_hospitals (responses : List HttpOutcome) : Except String (List NodeResult) :=
  train_from 0 responses

/-- log_history (server_main.py lines 59-69): read the history file,
treating a missing or unparseable file as the empty list, append the
entry, and write the whole list back. -/
def log_history (f : FileState (List StatusData)) (entry : StatusData) :
    FileState (List StatusData) :=
  match f with
  | FileState.missing => FileState.parsed [entry]
  | FileState.corrupt => FileState.parsed [entry]
  | FileState.parsed h => FileState.parsed (h ++ [entry])

/-- log_agent_action (server_main.py lines 71-81): same tolerant
read-append-write on the agent log. -/
def log_agent_action (f : FileState (List AgentEntry)) (cycle : ℕ) (action : String) :
    FileState (List AgentEntry) :=
  match f with
  | FileState.missing => FileState.parsed [{ cycle := cycle, action := action }]
  | FileState.corrupt => FileState.parsed [{ cycle := cycle, action := action }]
  | FileState.parsed l => FileState.parsed (l ++ [{ cycle := cycle, action := action }])

/-- save_global_model: writes the weights only when truthy; None leaves
the file untouched. -/
def save_global_model (f : FileState Weights) (w : Option Weights) : FileState Weights :=
  match w with
  | none => f
  | some v => FileState.parsed v

/-- load_global_model: None when the file is missing; json.load raises
on a corrupt file. -/
def load_global_model (f : FileState Weights) : Except String (Option Weights) :=
  match f with
  | FileState.missing => Except.ok none
  | FileState.corrupt => Except.error ("json.decoder.JSONDecodeError")
  | FileState.parsed w => Except.ok (some w)

/-- load_config (server_main.py lines 46-53): keeps the current global
CYCLE_COUNT and HOSPITALS when the config file is absent; otherwise
cfg.get("cycles", 3) and cfg.get("hospitals", HOSPITALS).  json.load
raises on a corrupt file. -/
def load_config (f : FileState ConfigDoc) (curCycles : ℕ) (curHospitals : List String) :
    Except String (ℕ × List String) :=
  match f with
  | FileState.missing => Except.ok (curCycles, curHospitals)
  | FileState.corrupt => Except.error ("json.decoder.JSONDecodeError")
  | FileState.parsed cfg => Except.ok (cfg.cycles.getD 3, cfg.hospitals.getD curHospitals)

/-- GET /status (server_main.py lines 186-191): 404 when the file is
missing; json.load raises on a corrupt file. -/
def get_status (f : FileState StatusData) : ReadResult StatusData :=
  match f with
  | FileState.missing => ReadResult.httpError 404 ("No training data yet. Run /start first.")
  | FileState.corrupt => ReadResult.raised ("json.decoder.JSONDecodeError")
  | FileState.parsed v => ReadResult.ok v

/-- GET /history (server_main.py lines 193-198): empty list when the
file is missing; json.load raises on a corrupt file. -/
def get_history (f : FileState (List StatusData)) : ReadResult (List StatusData) :=
  match f with
  | FileState.missing => ReadResult.ok []
  | FileState.corrupt => ReadResult.raised ("json.decoder.JSONDecodeError")
  | FileState.parsed h => ReadResult.ok h

/-- GET /global_model: the none-yet marker message is modelled as ok
none; json.load raises on a corrupt file. -/
def get_global_model (f : FileState Weights) : ReadResult (Option Weights) :=
  match f with
  | FileState.missing => ReadResult.ok none
  | FileState.corrupt => ReadResult.raised ("json.decoder.JSONDecodeError")
  | FileState.parsed w => ReadResult.ok (some w)

/-- GET /agent_log: empty list when the file is missing; json.load
raises on a corrupt file. -/
def get_agent_log (f : FileState (List AgentEntry)) : ReadResult (List AgentEntry) :=
  match f with
  | FileState.missing => ReadResult.ok []
  | FileState.corrupt => ReadResult.raised ("json.decoder.JSONDecodeError")
  | FileState.parsed l => ReadResult.ok l

/-- POST /reset (server_main.py lines 224-230): removes every owned
file that exists. -/
def reset (_fs : Files) : Files :=
  { status := FileState.missing, history := FileState.missing,
    global_model := FileState.missing, config := FileState.missing,
    agent_log := FileState.missing }

/-- The mutable state a running simulation threads between cycles: the
shared global HOSPITALS list, the five files, and the in-memory
global_weights variable. -/
structure RunState where
  hospitals : List String
  files : Files
  global_weights : Option Weights
  deriving DecidableEq

/-- Trace of one executed cycle, recording what the loop used and
produced: the cycle index, the global weights sent to the nodes, the
endpoint list used, the collected results, and the aggregation outputs. -/
structure CycleOut where
  cycle : ℕ
  input_weights : Option Weights
  hospitals_used : List String
  results : List NodeResult
  global_accuracy : ℚ
  new_weights : Option Weights
  deriving DecidableEq

/-- POST /config (server_main.py lines 179-184) as it affects a running
simulation: writes the config file, then load_config rebinds the shared
globals — in particular it replaces the HOSPITALS list in place, which
the in-flight loop reads on its next cycle.  (The CYCLE_COUNT global is
also rebound, but the running loop's range object is already fixed.) -/
def update_config (cfg : ConfigDoc) (st : RunState) : RunState :=
  { st with files := { st.files with config := FileState.parsed cfg },
            hospitals := cfg.hospitals.getD st.hospitals }

/-- Applies an optional concurrent config update between cycles. -/
def apply_upd (u : Option ConfigDoc) (st : RunState) : RunState :=
  match u with
  | none => st
  | some cfg => update_config cfg st

/-- One iteration of the simulation loop body (server_main.py lines
142-166): log the start, fan out (train_all_hospitals), aggregate
accuracy and weights, save the global model, write status, append
history, log completion, and thread new_global_weights forward.  An
Except.error models the uncaught exception that aborts the background
task. -/
def run_one_cycle (c : ℕ) (responses : List HttpOutcome) (st : RunState) :
    Except String (RunState × CycleOut) :=
  match train_all_hospitals responses with
  | Except.error e => Except.error e
  | Except.ok results =>
    match aggregate_fedavg results with
    | Except.error e => Except.error e
    | Except.ok acc =>
      match aggregate_model_weights results with
      | Except.error e => Except.error e
      | Except.ok nw =>
        Except.ok
          ({ hospitals := st.hospitals,
             files :=
               { status := FileState.parsed
                   { cycle := c, global_accuracy := acc, hospitals := results },
                 history := log_history (st.files.history)
                   { cycle := c, global_accuracy := acc, hospitals := results },
                 global_model := save_global_model (st.files.global_model) nw,
                 config := st.files.config,
                 agent_log :=
                   log_agent_action
                     (log_agent_action (st.files.agent_log) c ("Starting cycle " ++ toString c))
                     c ("Completed cycle " ++ toString c ++ " with acc=" ++ toString acc) },
             global_weights := nw },
           { cycle := c, input_weights := st.global_weights,
             hospitals_used := st.hospitals, results := results,
             global_accuracy := acc, new_weights := nw })

/-- The cycle loop: c is the next cycle index, the second argument the
number of iterations left (fixed when the range was built).  net gives
the outcome of the POST to each endpoint for a given cycle and payload;
upd is the schedule of concurrent config updates, applied between
cycles. -/
def run_cycles (net : ℕ → String → Option Weights → HttpOutcome)
    (upd : ℕ → Option ConfigDoc) :
    ℕ → ℕ → RunState → Except String (RunState × List CycleOut)
  | _, 0, st => Except.ok (st, [])
  | c, m + 1, st =>
    match run_one_cycle c (st.hospitals.map (fun url => net c url st.global_weights)) st with
    | Except.error e => Except.error e
    | Except.ok (st1, out) =>
      match run_cycles net upd (c + 1) m (apply_upd (upd c) st1) with
      | Except.error e => Except.error e
      | Except.ok (st2, outs) => Except.ok (st2, out :: outs)

/-- simulate_agent_cycle (server_main.py lines 134-169): load the
config (curCycles / curHospitals are the current values of the
CYCLE_COUNT and HOSPITALS globals), load the persisted global model,
then run the fixed number of cycles. -/
def simulate_agent_cycle (net : ℕ → String → Option Weights → HttpOutcome)
    (upd : ℕ → Option ConfigDoc) (init : Files)
    (curCycles : ℕ) (curHospitals : List String) :
    Except String (RunState × List CycleOut) :=
  match load_config init.config curCycles curHospitals with
  | Except.error e => Except.error e
  | Except.ok (n, hosp) =>
    match load_global_model init.global_model with
    | Except.error e => Except.error e
    | Except.ok gw =>
      run_cycles net upd 1 n { hospitals := hosp, files := init, global_weights := gw }

/-- The cycle trace of a run; empty when the run aborted. -/
def outsOf (e : Except String (RunState × List CycleOut)) : List CycleOut :=
  match e with
  | Except.ok p => p.2
  | Except.error _ => []

/-- Whether a run completed without an uncaught exception. -/
def runCompleted (e : Except String (RunState × List CycleOut)) : Bool :=
  match e with
  | Except.ok _ => true
  | Except.error _ => false

/-- Cycle trace of a full simulation. -/
def runOuts (net : ℕ → String → Option Weights → HttpOutcome)
    (upd : ℕ → Option ConfigDoc) (init : Files)
    (curCycles : ℕ) (curHospitals : List String) : List CycleOut :=
  outsOf (simulate_agent_cycle net upd init curCycles curHospitals)

/-- The list the tolerant history read produces: the parsed list, or the
empty list for a missing or corrupt file. -/
def histList (f : FileState (List StatusData)) : List StatusData :=
  match f with
  | FileState.parsed h => h
  | _ => []

/-- log_history always appends the entry to the tolerantly-read list. -/
theorem log_history_eq (f : FileState (List StatusData)) (e : StatusData) :
    log_history f e = FileState.parsed (histList f ++ [e]) := by
  cases f <;> rfl

/-- A concurrent config update never touches the in-memory
global_weights variable of the running loop. -/
theorem apply_upd_gw (u : Option ConfigDoc) (st : RunState) :
    (apply_upd u st).global_weights = st.global_weights := by
  cases u <;> rfl

/-- Structural facts about a successfully completed cycle: the recorded
input weights are the weights the cycle was entered with, the state
leaves with the aggregated weights, and the endpoint list is recorded
unchanged. -/
theorem run_one_cycle_spec {c : ℕ} {responses : List HttpOutcome} {st st1 : RunState}
    {out : CycleOut} (h : run_one_cycle c responses st = Except.ok (st1, out)) :
    out.input_weights = st.global_weights ∧ st1.global_weights = out.new_weights ∧
    out.hospitals_used = st.hospitals ∧ st1.hospitals = st.hospitals := by
  unfold run_one_cycle at h
  cases h1 : train_all_hospitals responses with
  | error e => simp only [h1] at h; exact Except.noConfusion h
  | ok results =>
    simp only [h1] at h
    cases h2 : aggregate_fedavg results with
    | error e => simp only [h2] at h; exact Except.noConfusion h
    | ok acc =>
      simp only [h2] at h
      cases h3 : aggregate_model_weights results with
      | error e => simp only [h3] at h; exact Except.noConfusion h
      | ok nw =>
        simp only [h3] at h
        rw [Except.ok.injEq, Prod.mk.injEq] at h
        obtain ⟨hst, hout⟩ := h
        subst hst
        subst hout
        exact ⟨rfl, rfl, rfl, rfl⟩

/-- A completed loop executes exactly the number of cycles fixed when
the range object was built, whatever the update schedule does. -/
theorem run_cycles_len (net : ℕ → String → Option Weights → HttpOutcome)
    (upd : ℕ → Option ConfigDoc) :
    ∀ (m c : ℕ) (st st2 : RunState) (outs : List CycleOut),
    run_cycles net upd c m st = Except.ok (st2, outs) → outs.length = m := by
  intro m
  induction m with
  | zero =>
    intro c st st2 outs h
    unfold run_cycles at h
    rw [Except.ok.injEq, Prod.mk.injEq] at h
    rw [← h.2]
    rfl
  | succ m ih =>
    intro c st st2 outs h
    unfold run_cycles at h
    cases h1 : run_one_cycle c (st.hospitals.map (fun url => net c url st.global_weights)) st with
    | error e => simp only [h1] at h; exact Except.noConfusion h
    | ok p =>
      obtain ⟨st1, out⟩ := p
      simp only [h1] at h
      cases h2 : run_cycles net upd (c + 1) m (apply_upd (upd c) st1) with
      | error e => simp only [h2] at h; exact Except.noConfusion h
      | ok q =>
        obtain ⟨st3, outs3⟩ := q
        simp only [h2] at h
        rw [Except.ok.injEq, Prod.mk.injEq] at h
        rw [← h.2]
        simp [ih _ _ _ _ h2]

/-- The rolling-model invariant along a trace: each cycle is entered
with the given weights and hands its aggregated output to the next. -/
def chained : Option Weights → List CycleOut → Prop
  | _, [] => True
  | w, o :: rest => o.input_weights = w ∧ chained o.new_weights rest

/-- A completed loop satisfies the rolling-model invariant starting
from the weights held when it began. -/
theorem run_cycles_chained (net : ℕ → String → Option Weights → HttpOutcome)
    (upd : ℕ → Option ConfigDoc) :
    ∀ (m c : ℕ) (st st2 : RunState) (outs : List CycleOut),
    run_cycles net upd c m st = Except.ok (st2, outs) → chained st.global_weights outs := by
  intro m
  induction m with
  | zero =>
    intro c st st2 outs h
    unfold run_cycles at h
    rw [Except.ok.injEq, Prod.mk.injEq] at h
    rw [← h.2]
    trivial
  | succ m ih =>
    intro c st st2 outs h
    unfold run_cycles at h
    cases h1 : run_one_cycle c (st.hospitals.map (fun url => net c url st.global_weights)) st with
    | error e => simp only [h1] at h; exact Except.noConfusion h
    | ok p =>
      obtain ⟨st1, out⟩ := p
      simp only [h1] at h
      cases h2 : run_cycles net upd (c + 1) m (apply_upd (upd c) st1) with
      | error e => simp only [h2] at h; exact Except.noConfusion h
      | ok q =>
        obtain ⟨st3, outs3⟩ := q
        simp only [h2] at h
        rw [Except.ok.injEq, Prod.mk.injEq] at h
        rw [← h.2]
        obtain ⟨hin, hgw, _, _⟩ := run_one_cycle_spec h1
        refine ⟨hin, ?_⟩
        have hc3 := ih _ _ _ _ h2
        rw [apply_upd_gw, hgw] at hc3
        exact hc3

/-- Consecutive trace entries of a chained trace hand the model over
exactly. -/
theorem chained_get :
    ∀ (l : List CycleOut) (w : Option Weights), chained w l →
    ∀ (i : ℕ) (o1 o2 : CycleOut), l.get? i = some o1 → l.get? (i + 1) = some o2 →
    o2.input_weights = o1.new_weights := by
  intro l
  induction l with
  | nil =>
    intro w _ i o1 o2 h1 _
    simp at h1
  | cons o rest ih =>
    intro w hch i o1 o2 h1 h2
    obtain ⟨hw, hch2⟩ := hch
    cases i with
    | zero =>
      rw [List.get?_cons_zero, Option.some.injEq] at h1
      rw [List.get?_cons_succ] at h2
      cases rest with
      | nil => simp at h2
      | cons p r2 =>
        obtain ⟨hp, _⟩ := hch2
        rw [List.get?_cons_zero, Option.some.injEq] at h2
        rw [← h1, ← h2]
        exact hp
    | succ j =>
      rw [List.get?_cons_succ] at h1 h2
      exact ih o.new_weights hch2 j o1 o2 h1 h2

/-- Deconstruction of a completed simulation into its three stages. -/
theorem simulate_ok {net : ℕ → String → Option Weights → HttpOutcome}
    {upd : ℕ → Option ConfigDoc} {init : Files} {cc : ℕ} {ch : List String}
    {p : RunState × List CycleOut}
    (h : simulate_agent_cycle net upd init cc ch = Except.ok p) :
    ∃ n hosp gw, load_config init.config cc ch = Except.ok (n, hosp) ∧
      load_global_model init.global_model = Except.ok gw ∧
      run_cycles net upd 1 n
        { hospitals := hosp, files := init, global_weights := gw } = Except.ok p := by
  unfold simulate_agent_cycle at h
  cases hc : load_config init.config cc ch with
  | error e => simp only [hc] at h; exact Except.noConfusion h
  | ok pc =>
    obtain ⟨n, hosp⟩ := pc
    simp only [hc] at h
    cases hg : load_global_model init.global_model with
    | error e => simp only [hg] at h; exact Except.noConfusion h
    | ok gw =>
      simp only [hg] at h
      exact ⟨n, hosp, gw, rfl, rfl, h⟩

/-- When no response body is malformed, the result loop returns one
entry per response: exceptions become labelled error entries and parsed
bodies are passed through untouched. -/
theorem train_from_ok :
    ∀ (rs : List HttpOutcome) (i : ℕ),
    (∀ x ∈ rs, ∀ e, x ≠ HttpOutcome.resp (Except.error e)) →
    ∃ out, train_from i rs = Except.ok out ∧ out.length = rs.length ∧
      (∀ j m, rs.get? j = some (HttpOutcome.exc m) → out.get? j = some (exc_entry (i + j) m)) ∧
      (∀ j r, rs.get? j = some (HttpOutcome.resp (Except.ok r)) → out.get? j = some r) := by
  intro rs
  induction rs with
  | nil =>
    intro i _
    refine ⟨[], rfl, rfl, ?_, ?_⟩
    · intro j m hj; simp at hj
    · intro j r hj; simp at hj
  | cons x rest ih =>
    intro i h
    obtain ⟨out, hout, hlen, hexc, hokk⟩ :=
      ih (i + 1) (fun y hy e => h y (List.mem_cons_of_mem x hy) e)
    cases x with
    | exc msg =>
      refine ⟨exc_entry i msg :: out, ?_, ?_, ?_, ?_⟩
      · simp only [train_from, hout]
      · simp [hlen]
      · intro j m hj
        cases j with
        | zero =>
          rw [List.get?_cons_zero, Option.some.injEq, HttpOutcome.exc.injEq] at hj
          rw [List.get?_cons_zero, hj, Nat.add_zero]
        | succ jj =>
          rw [List.get?_cons_succ] at hj ⊢
          rw [hexc jj m hj]
          have harith : i + 1 + jj = i + (jj + 1) := by omega
          rw [harith]
      · intro j r hj
        cases j with
        | zero => simp at hj
        | succ jj =>
          rw [List.get?_cons_succ] at hj ⊢
          exact hokk jj r hj
    | resp body =>
      cases body with
      | error e => exact absurd rfl (h (HttpOutcome.resp (Except.error e)) (List.mem_cons_self _ _) e)
      | ok r0 =>
        refine ⟨r0 :: out, ?_, ?_, ?_, ?_⟩
        · simp only [train_from, hout]
        · simp [hlen]
        · intro j m hj
          cases j with
          | zero => simp at hj
          | succ jj =>
            rw [List.get?_cons_succ] at hj ⊢
            rw [hexc jj m hj]
            have harith : i + 1 + jj = i + (jj + 1) := by omega
            rw [harith]
        · intro j r hj
          cases j with
          | zero =>
            rw [List.get?_cons_zero, Option.some.injEq, HttpOutcome.resp.injEq,
              Except.ok.injEq] at hj
            rw [List.get?_cons_zero, hj]
          | succ jj =>
            rw [List.get?_cons_succ] at hj ⊢
            exact hokk jj r hj

/-- When every response is a raised transport exception, the result
loop succeeds and every produced entry is an error entry with none of
the success keys. -/
theorem train_from_all_exc :
    ∀ (rs : List HttpOutcome) (i : ℕ),
    (∀ x ∈ rs, ∃ m, x = HttpOutcome.exc m) →
    ∃ out, train_from i rs = Except.ok out ∧ out.length = rs.length ∧
      ∀ x ∈ out, x.accuracy = none ∧ x.samples = none ∧ x.weights = none ∧
        x.error.isSome = true := by
  intro rs
  induction rs with
  | nil =>
    intro i _
    refine ⟨[], rfl, rfl, ?_⟩
    intro x hx
    simp at hx
  | cons x rest ih =>
    intro i h
    obtain ⟨m, hm⟩ := h x (List.mem_cons_self x rest)
    obtain ⟨out, hout, hlen, hprops⟩ :=
      ih (i + 1) (fun y hy => h y (List.mem_cons_of_mem x hy))
    subst hm
    refine ⟨exc_entry i m :: out, ?_, ?_, ?_⟩
    · simp only [train_from, hout]
    · simp [hlen]
    · intro y hy
      rcases List.mem_cons.1 hy with rfl | hy2
      · exact ⟨rfl, rfl, rfl, rfl⟩
      · exact hprops y hy2

/-- When every result carries both keys, the weighted-sum generator
produces exactly the list of accuracy-times-samples products. -/
theorem weighted_terms_ok :
    ∀ (results : List NodeResult),
    (∀ r ∈ results, r.accuracy.isSome = true ∧ r.samples.isSome = true) →
    weighted_terms results =
      Except.ok (results.map (fun r => r.accuracy.getD 0 * (r.samples.getD 0 : ℚ))) := by
  intro results
  induction results with
  | nil => intro _; rfl
  | cons r rest ih =>
    intro h
    obtain ⟨ha, hs⟩ := h r (List.mem_cons_self r rest)
    obtain ⟨a, hae⟩ := Option.isSome_iff_exists.1 ha
    obtain ⟨s, hse⟩ := Option.isSome_iff_exists.1 hs
    unfold weighted_terms
    rw [hae, hse, ih (fun x hx => h x (List.mem_cons_of_mem r hx))]
    simp [hae, hse]

/-- Two member matrices of differing nested-list shape make the
element-wise np.mean raise. -/
theorem npMeanMats_error_of_dims {ms : List (List (List ℚ))} {m1 m2 : List (List ℚ)}
    (h1 : m1 ∈ ms) (h2 : m2 ∈ ms) (hne : matDims m1 ≠ matDims m2) :
    ∃ e, npMeanMats ms = Except.error e := by
  cases ms with
  | nil => cases h1
  | cons m0 rest =>
    simp only [npMeanMats]
    by_cases hrect : ((m0 :: rest).all isRect) = true
    · rw [if_pos hrect]
      by_cases hdims : (rest.all (fun m => matDims m = matDims m0)) = true
      · exfalso
        have hall : ∀ m ∈ m0 :: rest, matDims m = matDims m0 := by
          intro m hm
          rcases List.mem_cons.1 hm with rfl | hm2
          · rfl
          · have hb := List.all_eq_true.1 hdims m hm2
            simpa using hb
        exact hne ((hall m1 h1).trans (hall m2 h2).symm)
      · rw [if_neg hdims]
        exact ⟨_, rfl⟩
    · rw [if_neg hrect]
      exact ⟨_, rfl⟩

/-- A successful node response body, as a hospital endpoint produces it
(accuracy, samples, a 2-element weights structure). -/
def okNodeA : NodeResult :=
  { hospital := some ("Hospital_A"), accuracy := some (9/10), samples := some 100,
    weights := some ([[1/10, 2/10]], [3/10]), error := none }

/-- One successful response and one timed-out node. -/
def mixedResponses : List HttpOutcome :=
  [HttpOutcome.resp (Except.ok okNodeA), HttpOutcome.exc ("httpx.ReadTimeout")]

/-- A fresh run state: no files yet, no global weights. -/
def initialRunState : RunState :=
  { hospitals := ["http://127.0.0.1:8001/train", "http://127.0.0.1:8002/train"],
    files := { status := FileState.missing, history := FileState.missing,
               global_model := FileState.missing, config := FileState.missing,
               agent_log := FileState.missing },
    global_weights := none }

/-- C1: in a cycle where one node succeeds and one fails, the fan-out
does return one entry per node (the failed node as an error entry), but
aggregate_fedavg then subscripts the error entry with r["accuracy"] and
raises KeyError, so the cycle aborts and no record with a global
accuracy computed from the successes is produced.  This evaluates the
embedded code at the failing input of the code_bug verdict. -/
theorem c1_partial_failure_cycle_raises :
    train_all_hospitals mixedResponses =
      Except.ok [okNodeA, exc_entry 1 ("httpx.ReadTimeout")] ∧
    totalSamples [okNodeA, exc_entry 1 ("httpx.ReadTimeout")] = 100 ∧
    aggregate_fedavg [okNodeA, exc_entry 1 ("httpx.ReadTimeout")] =
      Except.error ("KeyError: accuracy") ∧
    run_one_cycle 1 mixedResponses initialRunState = Except.error ("KeyError: accuracy") := by
  with_unfolding_all decide

/-- A response whose body carries none of the expected keys. -/
def emptyNode : NodeResult :=
  { hospital := none, accuracy := none, samples := none, weights := none, error := none }

/-- C2 counterexample: a malformed response body makes the node-call
boundary raise (res.json() is not guarded), instead of producing an
InvalidResponse error entry; and a body with none of the required keys
is accepted as a successful result with no validation at all. -/
theorem c2_counterexample :
    train_all_hospitals [HttpOutcome.resp (Except.error ("JSONDecodeError: Expecting value"))] =
      Except.error ("JSONDecodeError: Expecting value") ∧
    train_all_hospitals [HttpOutcome.resp (Except.ok emptyNode)] = Except.ok [emptyNode] := by
  with_unfolding_all decide

/-- C2 amended: exceptions raised by the request itself (timeout,
connection refusal) are converted in place into per-node error entries
carrying the exception text, and parsed bodies are passed through
unvalidated; only runs with no malformed body stay inside the
boundary. -/
theorem c2_node_client_amended (responses : List HttpOutcome)
    (h : ∀ x ∈ responses, ∀ e, x ≠ HttpOutcome.resp (Except.error e)) :
    ∃ out, train_all_hospitals responses = Except.ok out ∧
      out.length = responses.length ∧
      (∀ j m, responses.get? j = some (HttpOutcome.exc m) →
        out.get? j = some (exc_entry j m)) ∧
      (∀ j r, responses.get? j = some (HttpOutcome.resp (Except.ok r)) →
        out.get? j = some r) := by
  obtain ⟨out, h1, h2, h3, h4⟩ := train_from_ok responses 0 h
  refine ⟨out, h1, h2, ?_, h4⟩
  intro j m hj
  have hz := h3 j m hj
  rwa [Nat.zero_add] at hz

/-- Responses used to witness the amended C2 claim. -/
def respsW : List HttpOutcome :=
  [HttpOutcome.exc ("httpx.ConnectTimeout"), HttpOutcome.resp (Except.ok okNodeA)]

/-- C2 witness: the amended node-client theorem applied to a concrete
pair of responses. -/
theorem c2_node_client_amended_witness :
    (∀ x ∈ respsW, ∀ e, x ≠ HttpOutcome.resp (Except.error e)) ∧
    (∃ out, train_all_hospitals respsW = Except.ok out ∧
      out.length = respsW.length ∧
      (∀ j m, respsW.get? j = some (HttpOutcome.exc m) →
        out.get? j = some (exc_entry j m)) ∧
      (∀ j r, respsW.get? j = some (HttpOutcome.resp (Except.ok r)) →
        out.get? j = some r)) := by
  have hyp : ∀ x ∈ respsW, ∀ e, x ≠ HttpOutcome.resp (Except.error e) := by
    intro x hx e
    rcases List.mem_cons.1 hx with rfl | hx2
    · intro hq; exact HttpOutcome.noConfusion hq
    · rw [List.mem_singleton] at hx2
      subst hx2
      intro hq
      rw [HttpOutcome.resp.injEq] at hq
      exact Except.noConfusion hq
  exact ⟨hyp, c2_node_client_amended respsW hyp⟩

/-- Successful result with a 1x2 coefficient matrix. -/
def wr1 : NodeResult :=
  { hospital := some ("Hospital_A"), accuracy := some (9/10), samples := some 640,
    weights := some ([[1/10, 2/10]], [0]), error := none }

/-- Second successful result with the majority 1x2 shape. -/
def wr2 : NodeResult :=
  { hospital := some ("Hospital_B"), accuracy := some (4/5), samples := some 640,
    weights := some ([[3/10, 4/10]], [1/10]), error := none }

/-- Successful result whose coefficient matrix has the minority 1x1
shape. -/
def wr3 : NodeResult :=
  { hospital := some ("Hospital_C"), accuracy := some (7/10), samples := some 640,
    weights := some ([[5/10]], [2/10]), error := none }

/-- C3 counterexample: with two results of the majority 1x2 shape and
one of shape 1x1, aggregate_model_weights does not exclude the
minority-shape result and average the rest; the np.mean over
differently-shaped arrays raises, so the aggregation fails instead of
completing. -/
theorem c3_counterexample :
    aggregate_model_weights [wr1, wr2, wr3] =
      Except.error ("ValueError: inhomogeneous shape") ∧
    (∀ o, aggregate_model_weights [wr1, wr2, wr3] ≠ Except.ok o) := by
  have h1 : aggregate_model_weights [wr1, wr2, wr3] =
      Except.error ("ValueError: inhomogeneous shape") := by
    with_unfolding_all decide
  refine ⟨h1, ?_⟩
  intro o ho
  rw [h1] at ho
  exact Except.noConfusion ho

/-- C3 amended: a shape mismatch among the successful results carrying
weights is fatal to the aggregation — the mismatched results are not
excluded; aggregate_model_weights raises whenever two results carry
coefficient structures of differing shape. -/
theorem c3_shape_mismatch_fatal (results : List NodeResult) (r1 r2 : NodeResult)
    (w1 w2 : Weights) (h1 : r1 ∈ results) (h2 : r2 ∈ results)
    (hw1 : r1.weights = some w1) (hw2 : r2.weights = some w2)
    (hshape : matDims w1.1 ≠ matDims w2.1) :
    ∃ e, aggregate_model_weights results = Except.error e := by
  have hv1 : r1 ∈ validResults results := List.mem_filter.2 ⟨h1, by rw [hw1]; rfl⟩
  have hv2 : r2 ∈ validResults results := List.mem_filter.2 ⟨h2, by rw [hw2]; rfl⟩
  have hm1 : w1.1 ∈ (validResults results).filterMap (fun r => r.weights.map Prod.fst) :=
    List.mem_filterMap.2 ⟨r1, hv1, by rw [hw1]; rfl⟩
  have hm2 : w2.1 ∈ (validResults results).filterMap (fun r => r.weights.map Prod.fst) :=
    List.mem_filterMap.2 ⟨r2, hv2, by rw [hw2]; rfl⟩
  obtain ⟨e, he⟩ := npMeanMats_error_of_dims hm1 hm2 hshape
  refine ⟨e, ?_⟩
  unfold aggregate_model_weights
  have hne : (validResults results).isEmpty = false := by
    cases hvv : validResults results with
    | nil => rw [hvv] at hv1; cases hv1
    | cons a l => rfl
  rw [if_neg (by rw [hne]; exact Bool.false_ne_true)]
  simp only [he]

/-- C3 witness: the fatal-mismatch theorem applied at the concrete
three-result set. -/
theorem c3_shape_mismatch_fatal_witness :
    matDims ([[1/10, 2/10]] : List (List ℚ)) ≠ matDims ([[5/10]] : List (List ℚ)) ∧
    (∃ e, aggregate_model_weights [wr1, wr2, wr3] = Except.error e) := by
  have hsh : matDims ([[1/10, 2/10]] : List (List ℚ)) ≠ matDims ([[5/10]] : List (List ℚ)) := by
    with_unfolding_all decide
  exact ⟨hsh, c3_shape_mismatch_fatal [wr1, wr2, wr3] wr1 wr3
    ([[1/10, 2/10]], [0]) ([[5/10]], [2/10]) (by simp) (by simp) rfl rfl hsh⟩

/-- C4: with zero summed sample weight aggregate_fedavg returns exactly
0 with no fault; and a cycle in which every node call failed still
completes, writes a status record with global_accuracy 0, and appends
that record to the history rather than omitting the cycle. -/
theorem c4_all_failed_zero_and_recorded :
    (∀ results : List NodeResult, totalSamples results = 0 →
      aggregate_fedavg results = Except.ok 0) ∧
    (∀ (c : ℕ) (responses : List HttpOutcome) (st : RunState),
      (∀ x ∈ responses, ∃ m, x = HttpOutcome.exc m) →
      ∃ st1 out, run_one_cycle c responses st = Except.ok (st1, out) ∧
        out.global_accuracy = 0 ∧
        out.results.length = responses.length ∧
        totalSamples out.results = 0 ∧
        st1.files.status = FileState.parsed
          { cycle := c, global_accuracy := 0, hospitals := out.results } ∧
        st1.files.history = FileState.parsed (histList st.files.history ++
          [{ cycle := c, global_accuracy := 0, hospitals := out.results }])) := by
  constructor
  · intro results h
    unfold aggregate_fedavg
    rw [if_pos h]
  · intro c responses st h
    obtain ⟨out, htr, hlen, hprops⟩ := train_from_all_exc responses 0 h
    have htot : totalSamples out = 0 := by
      unfold totalSamples
      apply List.sum_eq_zero
      intro v hv
      obtain ⟨r, hr, hrv⟩ := List.mem_map.1 hv
      rw [← hrv, (hprops r hr).2.1]
      rfl
    have hacc : aggregate_fedavg out = Except.ok 0 := by
      unfold aggregate_fedavg
      rw [if_pos htot]
    have hvr : validResults out = [] := by
      apply List.filter_eq_nil_iff.2
      intro a ha
      rw [(hprops a ha).2.2.1]
      simp
    have hamw : aggregate_model_weights out = Except.ok none := by
      unfold aggregate_model_weights
      rw [if_pos (by rw [hvr]; rfl)]
    refine ⟨{ hospitals := st.hospitals,
              files := { status := FileState.parsed
                           { cycle := c, global_accuracy := 0, hospitals := out },
                         history := log_history st.files.history
                           { cycle := c, global_accuracy := 0, hospitals := out },
                         global_model := save_global_model st.files.global_model none,
                         config := st.files.config,
                         agent_log := log_agent_action
                           (log_agent_action st.files.agent_log c ("Starting cycle " ++ toString c))
                           c ("Completed cycle " ++ toString c ++ " with acc=" ++ toString (0 : ℚ)) },
              global_weights := none },
            { cycle := c, input_weights := st.global_weights, hospitals_used := st.hospitals,
              results := out, global_accuracy := 0, new_weights := none },
            ?_, rfl, hlen, htot, rfl, ?_⟩
    · simp only [run_one_cycle, train_all_hospitals, htr, hacc, hamw]
    · exact log_history_eq st.files.history _

/-- The single-node all-failed response list for the C4 witness. -/
def failedRespsW : List HttpOutcome := [HttpOutcome.exc ("httpx.ConnectError")]

/-- C4 witness: both halves of the all-failed theorem applied at
concrete inputs. -/
theorem c4_all_failed_zero_and_recorded_witness :
    (totalSamples [exc_entry 0 ("timeout")] = 0 ∧
     aggregate_fedavg [exc_entry 0 ("timeout")] = Except.ok 0) ∧
    ((∀ x ∈ failedRespsW, ∃ m, x = HttpOutcome.exc m) ∧
     ∃ st1 out, run_one_cycle 1 failedRespsW initialRunState = Except.ok (st1, out) ∧
       out.global_accuracy = 0 ∧
       out.results.length = failedRespsW.length ∧
       totalSamples out.results = 0 ∧
       st1.files.status = FileState.parsed
         { cycle := 1, global_accuracy := 0, hospitals := out.results } ∧
       st1.files.history = FileState.parsed (histList initialRunState.files.history ++
         [{ cycle := 1, global_accuracy := 0, hospitals := out.results }])) := by
  have hyp : ∀ x ∈ failedRespsW, ∃ m, x = HttpOutcome.exc m := by
    intro x hx
    simp only [failedRespsW, List.mem_singleton] at hx
    exact ⟨"httpx.ConnectError", hx⟩
  exact ⟨⟨by with_unfolding_all decide,
    c4_all_failed_zero_and_recorded.1 [exc_entry 0 ("timeout")] (by with_unfolding_all decide)⟩,
    hyp, c4_all_failed_zero_and_recorded.2 1 failedRespsW initialRunState hyp⟩

/-- First 1x3 successful result of the spec example. -/
def pw1 : NodeResult :=
  { hospital := some ("Hospital_A"), accuracy := some (9/10), samples := some 640,
    weights := some ([[1/5, 2/5, 3/5]], [1/10]), error := none }

/-- Second 1x3 successful result of the spec example. -/
def pw2 : NodeResult :=
  { hospital := some ("Hospital_B"), accuracy := some (17/20), samples := some 640,
    weights := some ([[2/5, 3/5, 4/5]], [3/10]), error := none }

/-- C5: on the spec's example — coefficient vectors [0.2,0.4,0.6] and
[0.4,0.6,0.8] — aggregate_model_weights returns the element-wise mean
[0.3,0.5,0.7] (and the mean intercept), and it returns None whenever no
result carries a weights key. -/
theorem c5_parameter_mean :
    aggregate_model_weights [pw1, pw2] =
      Except.ok (some ([[3/10, 1/2, 7/10]], [1/5])) ∧
    (∀ results : List NodeResult, (∀ r ∈ results, r.weights = none) →
      aggregate_model_weights results = Except.ok none) := by
  constructor
  · with_unfolding_all decide
  · intro results h
    have hvr : validResults results = [] := by
      apply List.filter_eq_nil_iff.2
      intro a ha
      rw [h a ha]
      simp
    unfold aggregate_model_weights
    rw [if_pos (by rw [hvr]; rfl)]

/-- C5 witness: the None case applied to a concrete all-failed result
set. -/
theorem c5_parameter_mean_witness :
    (∀ r ∈ [exc_entry 0 ("timeout")], r.weights = none) ∧
    aggregate_model_weights [exc_entry 0 ("timeout")] = Except.ok none := by
  have hyp : ∀ r ∈ [exc_entry 0 ("timeout")], r.weights = none := by
    with_unfolding_all decide
  exact ⟨hyp, c5_parameter_mean.2 [exc_entry 0 ("timeout")] hyp⟩

/-- C6: along any run's trace, the global weights handed to the nodes
in cycle k+1 are exactly the aggregate_model_weights output recorded in
cycle k — a single rolling model, not an accumulation over history. -/
theorem c6_rolling_global_model (net : ℕ → String → Option Weights → HttpOutcome)
    (upd : ℕ → Option ConfigDoc) (init : Files) (cc : ℕ) (ch : List String) (i : ℕ)
    (h : i + 1 < (runOuts net upd init cc ch).length) :
    ((runOuts net upd init cc ch).map CycleOut.input_weights).get? (i + 1) =
    ((runOuts net upd init cc ch).map CycleOut.new_weights).get? i := by
  have hch : ∃ w, chained w (runOuts net upd init cc ch) := by
    unfold runOuts outsOf
    cases hsim : simulate_agent_cycle net upd init cc ch with
    | error e => exact ⟨none, trivial⟩
    | ok p =>
      obtain ⟨n, hosp, gw, _, _, hrun⟩ := simulate_ok hsim
      exact ⟨gw, run_cycles_chained net upd n 1 _ p.1 p.2 (by rw [← hrun])⟩
  obtain ⟨w, hchw⟩ := hch
  have hi : i < (runOuts net upd init cc ch).length := Nat.lt_of_succ_lt h
  have h1 : (runOuts net upd init cc ch).get? i =
      some ((runOuts net upd init cc ch).get ⟨i, hi⟩) := List.get?_eq_get hi
  have h2 : (runOuts net upd init cc ch).get? (i + 1) =
      some ((runOuts net upd init cc ch).get ⟨i + 1, h⟩) := List.get?_eq_get h
  rw [List.get?_map, List.get?_map, h1, h2]
  exact congrArg some (chained_get _ w hchw i _ _ h1 h2)

/-- Network oracle for the C6 witness: every node always answers with
the same successful body. -/
def netW6 : ℕ → String → Option Weights → HttpOutcome := fun _ _ _ =>
  HttpOutcome.resp (Except.ok
    { hospital := some ("Hospital_A"), accuracy := some (1/2), samples := some 10,
      weights := some ([[1/4]], [1/2]), error := none })

/-- No concurrent config updates. -/
def updNone : ℕ → Option ConfigDoc := fun _ => none

/-- All five files absent at run start. -/
def emptyFiles : Files :=
  { status := FileState.missing, history := FileState.missing,
    global_model := FileState.missing, config := FileState.missing,
    agent_log := FileState.missing }

/-- C6 witness: the rolling-model theorem applied to a concrete
completed 2-cycle run. -/
theorem c6_rolling_global_model_witness :
    0 + 1 < (runOuts netW6 updNone emptyFiles 2 ["hA"]).length ∧
    ((runOuts netW6 updNone emptyFiles 2 ["hA"]).map CycleOut.input_weights).get? (0 + 1) =
    ((runOuts netW6 updNone emptyFiles 2 ["hA"]).map CycleOut.new_weights).get? 0 := by
  have hlen : 0 + 1 < (runOuts netW6 updNone emptyFiles 2 ["hA"]).length := by
    with_unfolding_all decide
  exact ⟨hlen, c6_rolling_global_model netW6 updNone emptyFiles 2 ["hA"] 0 hlen⟩

/-- C7: after reset, history reads back as the empty sequence and
status signals HTTP 404, for every prior file state. -/
theorem c7_reset_reads (fs : Files) :
    get_history ((reset fs).history) = ReadResult.ok ([] : List StatusData) ∧
    get_status ((reset fs).status) =
      ReadResult.httpError 404 ("No training data yet. Run /start first.") :=
  ⟨rfl, rfl⟩

/-- C8 counterexample: a corrupt (unparseable) status document makes
the status read raise instead of producing the same NotFound outcome as
a missing document, and a corrupt history document makes the history
read raise instead of returning the empty sequence. -/
theorem c8_counterexample :
    get_status FileState.corrupt = ReadResult.raised ("json.decoder.JSONDecodeError") ∧
    get_status FileState.missing =
      ReadResult.httpError 404 ("No training data yet. Run /start first.") ∧
    get_status FileState.corrupt ≠ get_status FileState.missing ∧
    get_history (FileState.corrupt : FileState (List StatusData)) =
      ReadResult.raised ("json.decoder.JSONDecodeError") ∧
    get_history (FileState.missing : FileState (List StatusData)) ≠
      get_history (FileState.corrupt : FileState (List StatusData)) := by
  with_unfolding_all decide

/-- C8 amended: only the write-side append helpers (log_history,
log_agent_action) treat a malformed persisted document as empty; every
read operation over the persisted state (status, history, global model,
audit log) raises on a malformed document instead of treating it as
absent. -/
theorem c8_corrupt_reads_amended (e : StatusData) (a : AgentEntry) (l : List StatusData) :
    log_history FileState.corrupt e = FileState.parsed [e] ∧
    log_history FileState.missing e = FileState.parsed [e] ∧
    log_history (FileState.parsed l) e = FileState.parsed (l ++ [e]) ∧
    log_agent_action FileState.corrupt a.cycle a.action = FileState.parsed [a] ∧
    get_status FileState.corrupt = ReadResult.raised ("json.decoder.JSONDecodeError") ∧
    get_history (FileState.corrupt : FileState (List StatusData)) =
      ReadResult.raised ("json.decoder.JSONDecodeError") ∧
    get_global_model FileState.corrupt = ReadResult.raised ("json.decoder.JSONDecodeError") ∧
    get_agent_log FileState.corrupt = ReadResult.raised ("json.decoder.JSONDecodeError") :=
  ⟨rfl, rfl, rfl, rfl, rfl, rfl, rfl, rfl⟩

/-- Network oracle for the C9 scenario: every call fails fast. -/
def netC9 : ℕ → String → Option Weights → HttpOutcome := fun _ _ _ =>
  HttpOutcome.exc ("httpx.ConnectError")

/-- Concurrent config update after cycle 1: new endpoint list and a new
cycle count. -/
def updC9 : ℕ → Option ConfigDoc := fun c =>
  if c = 1 then some { cycles := some 5, hospitals := some ["h2"] } else none

/-- Files at the start of the C9 scenario: a config with 2 cycles and
one endpoint h1. -/
def filesC9 : Files :=
  { status := FileState.missing, history := FileState.missing,
    global_model := FileState.missing,
    config := FileState.parsed { cycles := some 2, hospitals := some ["h1"] },
    agent_log := FileState.missing }

/-- C9 counterexample: a config update arriving while the run is in
flight (after cycle 1) changes the endpoint list used by cycle 2 of the
same run from h1 to h2 — the in-flight run does not keep its original
node-endpoint set. -/
theorem c9_counterexample :
    (runOuts netC9 updC9 filesC9 3 ["d1"]).map CycleOut.hospitals_used =
      [["h1"], ["h2"]] ∧
    (["h2"] : List String) ≠ ["h1"] := by
  with_unfolding_all decide

/-- C9 amended: the cycle count of an in-flight run is immune to
concurrent config updates — a completed run executes exactly the number
of cycles loaded when it started, whatever the update schedule wrote —
while the endpoint list is not (see the counterexample). -/
theorem c9_cycle_count_fixed (net : ℕ → String → Option Weights → HttpOutcome)
    (upd : ℕ → Option ConfigDoc) (init : Files) (cc : ℕ) (ch : List String)
    (n : ℕ) (hosp : List String)
    (hcfg : load_config init.config cc ch = Except.ok (n, hosp))
    (hok : runCompleted (simulate_agent_cycle net upd init cc ch) = true) :
    (runOuts net upd init cc ch).length = n := by
  cases hsim : simulate_agent_cycle net upd init cc ch with
  | error e =>
    unfold runCompleted at hok
    rw [hsim] at hok
    exact Bool.noConfusion hok
  | ok p =>
    obtain ⟨n2, hosp2, gw, hc2, _, hrun⟩ := simulate_ok hsim
    rw [hcfg, Except.ok.injEq, Prod.mk.injEq] at hc2
    unfold runOuts outsOf
    rw [hsim]
    have hlen := run_cycles_len net upd n2 1 _ p.1 p.2 (by rw [← hrun])
    rw [hlen, ← hc2.1]

/-- C9 witness: the fixed-cycle-count theorem applied to the concrete
scenario — the mid-run update tries to set 5 cycles, yet the run
executes the 2 cycles loaded at start. -/
theorem c9_cycle_count_fixed_witness :
    load_config filesC9.config 3 ["d1"] = Except.ok (2, ["h1"]) ∧
    runCompleted (simulate_agent_cycle netC9 updC9 filesC9 3 ["d1"]) = true ∧
    (runOuts netC9 updC9 filesC9 3 ["d1"]).length = 2 := by
  have hcfg : load_config filesC9.config 3 ["d1"] = Except.ok (2, ["h1"]) := by
    with_unfolding_all decide
  have hok : runCompleted (simulate_agent_cycle netC9 updC9 filesC9 3 ["d1"]) = true := by
    with_unfolding_all decide
  exact ⟨hcfg, hok, c9_cycle_count_fixed netC9 updC9 filesC9 3 ["d1"] 2 ["h1"] hcfg hok⟩

/-- A result set with positive total samples that also contains an
error entry. -/
def halfNode : NodeResult :=
  { hospital := some ("Hospital_C"), accuracy := some (1/2), samples := some 40,
    weights := none, error := none }

/-- C10 counterexample: on a result set with positive total sample
count that contains an error entry, aggregate_fedavg does not return
the rounded weighted mean — it raises KeyError instead of returning
anything. -/
theorem c10_counterexample :
    totalSamples [halfNode, exc_entry 3 ("httpx.ConnectError")] = 40 ∧
    aggregate_fedavg [halfNode, exc_entry 3 ("httpx.ConnectError")] =
      Except.error ("KeyError: accuracy") ∧
    (∀ q, aggregate_fedavg [halfNode, exc_entry 3 ("httpx.ConnectError")] ≠ Except.ok q) := by
  have h : aggregate_fedavg [halfNode, exc_entry 3 ("httpx.ConnectError")] =
      Except.error ("KeyError: accuracy") := by
    with_unfolding_all decide
  refine ⟨by with_unfolding_all decide, h, ?_⟩
  intro q hq
  rw [h] at hq
  exact Except.noConfusion hq

/-- The weighted sum of accuracy times samples over a result set whose
entries all carry both keys. -/
def weightedSum (results : List NodeResult) : ℚ :=
  (results.map (fun r => r.accuracy.getD 0 * (r.samples.getD 0 : ℚ))).sum

/-- C10 amended: on every result set of successful entries (each
carrying accuracy and samples) with positive total sample count,
aggregate_fedavg returns round(weighted_sum / total_samples, 3) — the
3-decimal half-even rounding of the weighted mean, not the exact
weighted mean. -/
theorem c10_round3_amended (results : List NodeResult)
    (hall : ∀ r ∈ results, r.accuracy.isSome = true ∧ r.samples.isSome = true)
    (hpos : totalSamples results ≠ 0) :
    aggregate_fedavg results =
      Except.ok (round3 (weightedSum results / (totalSamples results : ℚ))) := by
  unfold aggregate_fedavg
  rw [if_neg hpos, weighted_terms_ok results hall]
  rfl

/-- A single successful result whose exact weighted mean 1/3 is not
representable in 3 decimals. -/
def thirdNode : NodeResult :=
  { hospital := some ("Hospital_A"), accuracy := some (1/3), samples := some 1,
    weights := none, error := none }

/-- C10 witness: the rounding theorem applied at accuracy 1/3, where
the returned 0.333 differs from the exact weighted mean. -/
theorem c10_round3_amended_witness :
    (∀ r ∈ [thirdNode], r.accuracy.isSome = true ∧ r.samples.isSome = true) ∧
    totalSamples [thirdNode] ≠ 0 ∧
    aggregate_fedavg [thirdNode] =
      Except.ok (round3 (weightedSum [thirdNode] / (totalSamples [thirdNode] : ℚ))) ∧
    aggregate_fedavg [thirdNode] = Except.ok (333/1000) ∧
    (333/1000 : ℚ) ≠ weightedSum [thirdNode] / (totalSamples [thirdNode] : ℚ) := by
  have h1 : ∀ r ∈ [thirdNode], r.accuracy.isSome = true ∧ r.samples.isSome = true := by
    with_unfolding_all decide
  have h2 : totalSamples [thirdNode] ≠ 0 := by
    with_unfolding_all decide
  exact ⟨h1, h2, c10_round3_amended [thirdNode] h1 h2,
    by with_unfolding_all decide, by with_unfolding_all decide⟩
